import Mathlib

/-!
Shallow embedding of the todo-app task service (src/server.js): the SQLite
task table, the express-validator validation chain, the five route handlers,
and the express middleware stack order, with theorems checking the spec.
-/

namespace TodoApp

/-- A JavaScript value as it may appear in a parsed JSON body field
(only the shapes the `completed` field can take matter here). -/
inductive JsVal where
  | undef : JsVal
  | bool : Bool → JsVal
  | str : String → JsVal
  | num : Int → JsVal
deriving DecidableEq, Repr

/-- JavaScript truthiness, as used by `completed ? 1 : 0` in the handlers:
`undefined` and `false` are falsy, a string is truthy iff non-empty,
a number is truthy iff non-zero. -/
def truthy : JsVal → Bool
  | .undef => false
  | .bool b => b
  | .str s => s != ""
  | .num n => n != 0

/-- The string express-validator hands to a validator.js check for a field
value (non-string values are stringified; `undefined` becomes the empty
string). -/
def jsToString : JsVal → String
  | .undef => ""
  | .bool true => "true"
  | .bool false => "false"
  | .str s => s
  | .num n => toString n

/-- validator.js `isBoolean` with default (strict) options: the stringified
value must be one of "true", "false", "1", "0". -/
def isBooleanStr (s : String) : Bool :=
  s == "true" || s == "false" || s == "1" || s == "0"

/-- validator.js `escape`: replace each markup-significant character by its
HTML entity (`&`, `"`, the apostrophe, `<`, `>`, `/`, the backslash and the
backtick, identified here by code point). -/
def escChar (c : Char) : List Char :=
  if c.toNat == 38 then "&amp;".data
  else if c.toNat == 34 then "&quot;".data
  else if c.toNat == 39 then "&#x27;".data
  else if c.toNat == 60 then "&lt;".data
  else if c.toNat == 62 then "&gt;".data
  else if c.toNat == 47 then "&#x2F;".data
  else if c.toNat == 92 then "&#x5C;".data
  else if c.toNat == 96 then "&#96;".data
  else [c]

/-- validator.js `escape` applied to a whole string. -/
def escapeHtml (s : String) : String :=
  ⟨s.data.flatMap escChar⟩

/-- JavaScript `String.prototype.trim` (as invoked by the `.trim()`
sanitizer): strip leading and trailing whitespace. -/
def jsTrim (s : String) : String :=
  ⟨((s.data.dropWhile Char.isWhitespace).reverse.dropWhile
      Char.isWhitespace).reverse⟩

/-- The sanitizer chain `.trim().escape()` applied to a field. -/
def sanitize (s : String) : String := escapeHtml (jsTrim s)

/-- A request body for POST /tasks or PUT /tasks/:id as parsed by
`express.json()`: `title` and `description` absent or a string, `completed`
any JavaScript value. -/
structure Body where
  title : Option String
  description : Option String
  completed : JsVal
deriving DecidableEq, Repr

/-- One entry of `errors.array()` from express-validator. -/
structure FieldError where
  path : String
  msg : String
deriving DecidableEq, Repr

/-- The chain body(title).notEmpty() as it runs in the source: the check is
chained BEFORE the trim sanitizer, so it sees the raw value; a missing field
stringifies to "" and fails, while a whitespace-only string is non-empty and
passes. -/
def titleNotEmpty : Option String → Bool
  | none => false
  | some s => s != ""

/-- The chain body(completed).optional().isBoolean(): skipped when the field
is absent, otherwise the stringified value must pass isBoolean. -/
def completedIsBoolean : JsVal → Bool
  | .undef => true
  | v => isBooleanStr (jsToString v)

/-- The `validateTask` middleware chain: collected field errors, in chain
order (title check, then completed check; description has no validator). -/
def validateTask (b : Body) : List FieldError :=
  (if titleNotEmpty b.title then [] else [⟨"title", "Title is required"⟩]) ++
  (if completedIsBoolean b.completed then []
   else [⟨"completed", "Completed must be a boolean"⟩])

/-- One row of the `tasks` table. `completed` is the stored INTEGER (0 or 1);
timestamps are modelled as naturals. -/
structure Task where
  id : Nat
  title : String
  description : Option String
  completed : Nat
  created_at : Nat
  updated_at : Nat
deriving DecidableEq, Repr

/-- The `tasks` table plus the AUTOINCREMENT counter: `nextId` is the id the
next INSERT will assign (AUTOINCREMENT never reassigns an already-used id). -/
structure Db where
  rows : List Task
  nextId : Nat
deriving DecidableEq, Repr

/-- The freshly created table. AUTOINCREMENT ids start at 1. -/
def emptyDb : Db := ⟨[], 1⟩

/-- The statement INSERT INTO tasks (title, description, completed)
VALUES (?, ?, ?): both timestamps default to CURRENT_TIMESTAMP of the
statement; the new id is `nextId` (this is also `this.lastID`). -/
def insertTask (db : Db) (title : String) (description : Option String)
    (completed : Nat) (now : Nat) : Db :=
  ⟨db.rows ++ [⟨db.nextId, title, description, completed, now, now⟩],
   db.nextId + 1⟩

/-- The statement SELECT * FROM tasks WHERE id = ?. -/
def getById (db : Db) (id : Nat) : Option Task :=
  db.rows.find? (fun t => t.id == id)

/-- The statement UPDATE tasks SET title = ?, description = ?,
completed = ?, updated_at = CURRENT_TIMESTAMP WHERE id = ?; returns the new
table and `this.changes` (the number of rows that matched). -/
def updateTask (db : Db) (id : Nat) (title : String)
    (description : Option String) (completed : Nat) (now : Nat) : Db × Nat :=
  (⟨db.rows.map (fun t =>
      if t.id == id then
        { t with title := title, description := description,
                 completed := completed, updated_at := now }
      else t), db.nextId⟩,
   (db.rows.filter (fun t => t.id == id)).length)

/-- The statement DELETE FROM tasks WHERE id = ?; returns the new table and
`this.changes`. -/
def deleteById (db : Db) (id : Nat) : Db × Nat :=
  let remaining := db.rows.filter (fun t => !(t.id == id))
  (⟨remaining, db.nextId⟩, db.rows.length - remaining.length)

/-- A bound SQL parameter: either the JavaScript number default (10 / 0) or
the raw query string passed through from `req.query`. -/
inductive SqlParam where
  | int : Int → SqlParam
  | str : String → SqlParam
deriving DecidableEq, Repr

/-- Accumulate decimal digits; `none` on the first non-digit. -/
def digitsToNatAux : List Char → Nat → Option Nat
  | [], acc => some acc
  | c :: cs, acc =>
    if 48 ≤ c.toNat ∧ c.toNat ≤ 57 then
      digitsToNatAux cs (acc * 10 + (c.toNat - 48))
    else none

/-- A non-empty all-digit character list read as a natural number. -/
def digitsToNat? : List Char → Option Nat
  | [] => none
  | c :: cs => digitsToNatAux (c :: cs) 0

/-- A decimal integer literal, optionally preceded by a minus sign. -/
def strToInt? (s : String) : Option Int :=
  match s.data with
  | [] => none
  | c :: cs =>
    if c.toNat == 45 then (digitsToNat? cs).map (fun n => -(n : Int))
    else (digitsToNat? (c :: cs)).map (fun n => (n : Int))

/-- SQLite cast of a bound LIMIT/OFFSET parameter to an integer: numbers pass
through, strings must spell an integer (otherwise the statement fails with a
datatype mismatch). -/
def sqlToInt? : SqlParam → Option Int
  | .int n => some n
  | .str s => strToInt? s

/-- Comparator for `ORDER BY created_at DESC`. -/
def createdDesc (a b : Task) : Bool := Nat.ble b.created_at a.created_at

/-- Insert a task into a list already sorted by `createdDesc`. -/
def insertSorted (t : Task) : List Task → List Task
  | [] => [t]
  | h :: rest =>
    if createdDesc t h then t :: h :: rest else h :: insertSorted t rest

/-- Sort rows by `created_at` descending (the model of
`ORDER BY created_at DESC`). -/
def sortByCreatedDesc : List Task → List Task
  | [] => []
  | h :: rest => insertSorted h (sortByCreatedDesc rest)

/-- The rows selected before ordering and pagination: the optional
`WHERE completed = ?` clause. -/
def baseRows (db : Db) (filter : Option Nat) : List Task :=
  match filter with
  | some c => db.rows.filter (fun t => t.completed == c)
  | none => db.rows

/-- The statement SELECT * FROM tasks [WHERE completed = ?] ORDER BY
created_at DESC LIMIT ? OFFSET ? with already-cast limit and offset: a
negative offset acts as 0, a negative limit means no limit. -/
def listPage (db : Db) (filter : Option Nat) (limit offset : Int) :
    List Task :=
  if limit < 0 then
    (sortByCreatedDesc (baseRows db filter)).drop offset.toNat
  else
    ((sortByCreatedDesc (baseRows db filter)).drop offset.toNat).take
      limit.toNat

/-- An HTTP response body, one constructor per JSON shape the server sends
(`defaultErrorPage` is the express fallback error page, which is HTML and —
outside production — carries the error detail). -/
inductive RespBody where
  | createdTask : Nat → String → Option String → Bool → RespBody
  | taskList : List Task → Nat → RespBody
  | task : Task → RespBody
  | message : String → RespBody
  | messageWithId : String → Nat → RespBody
  | validationErrors : List FieldError → RespBody
  | genericError : String → RespBody
  | defaultErrorPage : String → RespBody
deriving DecidableEq, Repr

/-- An HTTP response: status code and body. -/
structure Response where
  status : Nat
  body : RespBody
deriving DecidableEq, Repr

/-- Handler for `POST /tasks`: on validation errors respond 400 with
`errors.array()` and leave the table alone; otherwise insert the sanitized
fields with `completed ? 1 : 0` and respond 201 echoing `!!completed`. -/
def postTasks (db : Db) (b : Body) (now : Nat) : Response × Db :=
  let errors := validateTask b
  if errors.isEmpty then
    let title := sanitize (b.title.getD "")
    let description := b.description.map sanitize
    let compInt : Nat := if truthy b.completed then 1 else 0
    (⟨201, .createdTask db.nextId title description (truthy b.completed)⟩,
     insertTask db title description compInt now)
  else
    (⟨400, .validationErrors errors⟩, db)

/-- The query string of `GET /tasks`: each parameter absent or a raw string. -/
structure ListQuery where
  completed : Option String
  limit : Option String
  offset : Option String
deriving DecidableEq, Repr

/-- The `completed` filter the handler pushes: present iff the parameter is,
1 exactly when the string equals "true", else 0. -/
def queryFilter (q : ListQuery) : Option Nat :=
  q.completed.map (fun s => if s == "true" then 1 else 0)

/-- The LIMIT parameter the handler pushes: the raw string when given, the
number 10 when absent (`const { limit = 10 } = req.query`). -/
def queryLimit (q : ListQuery) : SqlParam :=
  match q.limit with
  | some s => .str s
  | none => .int 10

/-- The OFFSET parameter the handler pushes: the raw string when given, the
number 0 when absent. -/
def queryOffset (q : ListQuery) : SqlParam :=
  match q.offset with
  | some s => .str s
  | none => .int 0

/-- What the handler hands to the store for `GET /tasks` — it performs no
validation of limit or offset. -/
structure StoreCall where
  filter : Option Nat
  limit : SqlParam
  offset : SqlParam
deriving DecidableEq, Repr

/-- Handler for `GET /tasks`: build the store call straight from the query
string, run it, respond 200 with rows and count; a statement failure (e.g.
non-integer limit) goes to `next(err)`, hence the express fallback page. -/
def getTasks (db : Db) (q : ListQuery) : StoreCall × Response :=
  (⟨queryFilter q, queryLimit q, queryOffset q⟩,
   match sqlToInt? (queryLimit q), sqlToInt? (queryOffset q) with
   | some l, some o =>
     ⟨200, .taskList (listPage db (queryFilter q) l o)
       (listPage db (queryFilter q) l o).length⟩
   | _, _ => ⟨500, .defaultErrorPage "SQLITE_MISMATCH: datatype mismatch"⟩)

/-- Handler for `GET /tasks/:id`. -/
def getTaskById (db : Db) (id : Nat) : Response :=
  match getById db id with
  | none => ⟨404, .message "Task not found"⟩
  | some t => ⟨200, .task t⟩

/-- Handler for `PUT /tasks/:id`: 400 on validation errors (table untouched),
otherwise run the UPDATE; 404 when `this.changes` is 0, else 200. -/
def putTask (db : Db) (id : Nat) (b : Body) (now : Nat) : Response × Db :=
  let errors := validateTask b
  if errors.isEmpty then
    let title := sanitize (b.title.getD "")
    let description := b.description.map sanitize
    let compInt : Nat := if truthy b.completed then 1 else 0
    let res := updateTask db id title description compInt now
    if res.2 == 0 then (⟨404, .message "Task not found"⟩, res.1)
    else (⟨200, .messageWithId "Task updated" id⟩, res.1)
  else
    (⟨400, .validationErrors errors⟩, db)

/-- Handler for `DELETE /tasks/:id`: 404 when `this.changes` is 0, else 200. -/
def deleteTask (db : Db) (id : Nat) : Response × Db :=
  let res := deleteById db id
  if res.2 == 0 then (⟨404, .message "Task not found"⟩, res.1)
  else (⟨200, .messageWithId "Task deleted" id⟩, res.1)

/-- A mutating request, with the CURRENT_TIMESTAMP in force when its SQL
statement runs (DELETE touches no timestamp, so it carries none). -/
inductive Op where
  | post : Body → Nat → Op
  | put : Nat → Body → Nat → Op
  | delete : Nat → Op
deriving DecidableEq, Repr

/-- Table effect of one request (the response is dropped). -/
def runOp (db : Db) : Op → Db
  | .post b now => (postTasks db b now).2
  | .put id b now => (putTask db id b now).2
  | .delete id => (deleteTask db id).2

/-- Table reached after a sequence of requests. -/
def runTrace (db : Db) : List Op → Db
  | [] => db
  | op :: rest => runTrace (runOp db op) rest

/-- The clock is monotone: each timestamped statement in the trace runs no
earlier than `lo` and than its predecessors. -/
def timesOk (lo : Nat) : List Op → Bool
  | [] => true
  | .post _ now :: rest => Nat.ble lo now && timesOk now rest
  | .put _ _ now :: rest => Nat.ble lo now && timesOk now rest
  | .delete _ :: rest => timesOk lo rest

/-- Well-formedness of the table: the AUTOINCREMENT counter is positive and
strictly above every stored id, and ids are distinct. -/
def Db.wf (db : Db) : Prop :=
  0 < db.nextId ∧ (∀ t ∈ db.rows, 0 < t.id ∧ t.id < db.nextId) ∧
  (db.rows.map Task.id).Nodup

/-- Full store invariant: well-formed and every row has
`created_at ≤ updated_at`. -/
def Db.inv (db : Db) : Prop :=
  db.wf ∧ ∀ t ∈ db.rows, t.created_at ≤ t.updated_at

/-- Every timestamp stored in the table is at most `lo`. -/
def Db.bounded (db : Db) (lo : Nat) : Prop :=
  ∀ t ∈ db.rows, t.updated_at ≤ lo ∧ t.created_at ≤ lo

/-- The express middleware stack in registration order, `true` marking a
4-ary error-handling layer: `express.json()`, then `errorHandler` (the only
error middleware, mounted BEFORE every route), then the six routes
(GET /, POST /tasks, GET /tasks, GET /tasks/:id, PUT /tasks/:id,
DELETE /tasks/:id). -/
def appStack : List Bool :=
  [false, true, false, false, false, false, false, false]

/-- Index of the first route layer in `appStack`; all routes sit at this
index or later. -/
def firstRouteIdx : Nat := 2

/-- Whether an error-handling layer occurs strictly after position `i`:
express dispatches `next(err)` only to error middleware later in the stack. -/
def hasErrorLayerAfter (stack : List Bool) (i : Nat) : Bool :=
  (stack.drop (i + 1)).any id

/-- The response the custom `errorHandler` middleware sends. -/
def errorHandlerResponse : Response :=
  ⟨500, .genericError "Something went wrong!"⟩

/-- The response to an error passed to `next` by the layer at index `i`:
the next error-handling layer if one follows, otherwise the express
fallback (finalhandler), which answers 500 with an HTML page carrying the
error detail outside production. -/
def errorDispatch (stack : List Bool) (i : Nat) (errDetail : String) :
    Response :=
  if hasErrorLayerAfter stack i then errorHandlerResponse
  else ⟨500, .defaultErrorPage errDetail⟩

/-- A table of 11 tasks with distinct creation times (ids 1..11, row `i`
created at time `i - 1`). -/
def elevenDb : Db :=
  ⟨(List.range 11).map (fun i => ⟨i + 1, "t", none, 0, i, i⟩), 12⟩

/-! ### Helper lemmas about the store primitives -/

theorem find?_append_fresh (l : List Task) (t : Task) (n : Nat)
    (ht : t.id = n) (h : ∀ x ∈ l, x.id ≠ n) :
    (l ++ [t]).find? (fun x => x.id == n) = some t := by
  rw [List.find?_append]
  have h1 : l.find? (fun x => x.id == n) = none := by
    rw [List.find?_eq_none]
    intro x hx
    simpa using h x hx
  rw [h1]
  simp [List.find?, ht]

theorem find?_map_update (l : List Task) (i : Nat) (t : Task) (ti : String)
    (d : Option String) (c : Nat) (now : Nat)
    (h : l.find? (fun x => x.id == i) = some t) :
    (l.map (fun x =>
        if x.id == i then
          { x with title := ti, description := d, completed := c,
                   updated_at := now }
        else x)).find? (fun x => x.id == i) =
      some { t with title := ti, description := d, completed := c,
                    updated_at := now } := by
  induction l with
  | nil => simp at h
  | cons hd tl ih =>
    cases hhd : (hd.id == i) with
    | true =>
      rw [List.find?_cons, hhd] at h
      obtain rfl : hd = t := by simpa using h
      rw [List.map_cons, if_pos hhd]
      exact @List.find?_cons_of_pos Task (fun x => x.id == i) _ _ hhd
    | false =>
      rw [List.find?_cons, hhd] at h
      simp only [List.map_cons, hhd, Bool.false_eq_true, if_false,
        List.find?_cons]
      exact ih h

theorem map_update_of_absent (l : List Task) (i : Nat) (ti : String)
    (d : Option String) (c : Nat) (now : Nat)
    (h : ∀ x ∈ l, ¬(x.id == i) = true) :
    l.map (fun x =>
      if x.id == i then
        { x with title := ti, description := d, completed := c,
                 updated_at := now }
      else x) = l := by
  induction l with
  | nil => rfl
  | cons hd tl ih =>
    rw [List.map_cons]
    have hhd : ¬(hd.id == i) = true := h hd (by simp)
    rw [if_neg hhd, ih (fun x hx => h x (List.mem_cons_of_mem _ hx))]

theorem updateTask_of_absent (db : Db) (i : Nat) (ti : String)
    (d : Option String) (c : Nat) (now : Nat)
    (h : getById db i = none) :
    updateTask db i ti d c now = (db, 0) := by
  have hall : ∀ x ∈ db.rows, ¬(x.id == i) = true :=
    List.find?_eq_none.mp h
  unfold updateTask
  have hfil : db.rows.filter (fun t => t.id == i) = [] := by
    rw [List.filter_eq_nil_iff]
    exact hall
  rw [map_update_of_absent db.rows i ti d c now hall, hfil]
  rfl

theorem updateTask_changes_pos (db : Db) (i : Nat) (t : Task) (ti : String)
    (d : Option String) (c : Nat) (now : Nat)
    (h : getById db i = some t) :
    (updateTask db i ti d c now).2 ≠ 0 := by
  have h' : db.rows.find? (fun x => x.id == i) = some t := h
  have hmem : t ∈ db.rows := List.mem_of_find?_eq_some h'
  have hp := List.find?_some h'
  have hm : t ∈ db.rows.filter (fun x => x.id == i) :=
    List.mem_filter.mpr ⟨hmem, hp⟩
  have hpos : 0 < (db.rows.filter (fun x => x.id == i)).length :=
    List.length_pos.mpr (List.ne_nil_of_mem hm)
  show (db.rows.filter (fun t => t.id == i)).length ≠ 0
  omega

theorem deleteById_of_absent (db : Db) (i : Nat)
    (h : ∀ x ∈ db.rows, ¬(x.id == i) = true) :
    deleteById db i = (db, 0) := by
  have hfil : db.rows.filter (fun t => !(t.id == i)) = db.rows := by
    rw [List.filter_eq_self]
    intro x hx
    simp [h x hx]
  unfold deleteById
  rw [hfil]
  simp

theorem deleteById_clears (db : Db) (i : Nat) :
    ∀ x ∈ (deleteById db i).1.rows, ¬(x.id == i) = true := by
  intro x hx
  have hmf := List.of_mem_filter hx
  simpa using hmf

theorem map_id_update (l : List Task) (i : Nat) (ti : String)
    (d : Option String) (c : Nat) (now : Nat) :
    (l.map (fun x =>
      if x.id == i then
        { x with title := ti, description := d, completed := c,
                 updated_at := now }
      else x)).map Task.id = l.map Task.id := by
  rw [List.map_map]
  apply List.map_congr_left
  intro x _
  by_cases hx : (x.id == i) = true
  · simp [Function.comp, hx]
  · simp [Function.comp, hx]

theorem bounded_mono (db : Db) (lo hi : Nat) (h : Db.bounded db lo)
    (hle : lo ≤ hi) : Db.bounded db hi := by
  intro t ht
  have := h t ht
  omega

theorem insertTask_step (db : Db) (ti : String) (d : Option String)
    (c : Nat) (now lo : Nat) (hinv : Db.inv db) (hb : Db.bounded db lo)
    (hle : lo ≤ now) :
    Db.inv (insertTask db ti d c now) ∧
    Db.bounded (insertTask db ti d c now) now := by
  obtain ⟨⟨hpos, hids, hnd⟩, hcu⟩ := hinv
  refine ⟨⟨⟨by simp [insertTask], ?_, ?_⟩, ?_⟩, ?_⟩
  · intro t ht
    rcases List.mem_append.mp ht with h1 | h2
    · have := hids t h1
      simp [insertTask]
      omega
    · simp at h2
      subst h2
      simp [insertTask]
      omega
  · show ((db.rows ++ [_]).map Task.id).Nodup
    rw [List.map_append, List.nodup_append]
    refine ⟨hnd, by simp, ?_⟩
    intro a ha hb2
    obtain ⟨x, hx, rfl⟩ := List.mem_map.mp ha
    have := (hids x hx).2
    simp at hb2
    omega
  · intro t ht
    rcases List.mem_append.mp ht with h1 | h2
    · exact hcu t h1
    · simp at h2
      subst h2
      exact Nat.le_refl _
  · intro t ht
    rcases List.mem_append.mp ht with h1 | h2
    · have := hb t h1
      constructor <;> omega
    · simp at h2
      subst h2
      exact ⟨Nat.le_refl _, Nat.le_refl _⟩

theorem updateTask_step (db : Db) (i : Nat) (ti : String)
    (d : Option String) (c : Nat) (now lo : Nat) (hinv : Db.inv db)
    (hb : Db.bounded db lo) (hle : lo ≤ now) :
    Db.inv (updateTask db i ti d c now).1 ∧
    Db.bounded (updateTask db i ti d c now).1 now := by
  obtain ⟨⟨hpos, hids, hnd⟩, hcu⟩ := hinv
  refine ⟨⟨⟨hpos, ?_, ?_⟩, ?_⟩, ?_⟩
  · intro t ht
    obtain ⟨x, hx, rfl⟩ := List.mem_map.mp ht
    have := hids x hx
    by_cases hxi : (x.id == i) = true
    · simp [updateTask, hxi]
      omega
    · simp [updateTask, hxi]
      omega
  · show (((db.rows.map _)).map Task.id).Nodup
    rw [map_id_update]
    exact hnd
  · intro t ht
    obtain ⟨x, hx, rfl⟩ := List.mem_map.mp ht
    have h1 := hcu x hx
    have h2 := hb x hx
    by_cases hxi : (x.id == i) = true
    · simp [hxi]
      omega
    · simp [hxi]
      omega
  · intro t ht
    obtain ⟨x, hx, rfl⟩ := List.mem_map.mp ht
    have h2 := hb x hx
    by_cases hxi : (x.id == i) = true
    · simp [hxi]
      omega
    · simp [hxi]
      omega

theorem deleteById_step (db : Db) (i : Nat) (lo : Nat) (hinv : Db.inv db)
    (hb : Db.bounded db lo) :
    Db.inv (deleteById db i).1 ∧ Db.bounded (deleteById db i).1 lo := by
  obtain ⟨⟨hpos, hids, hnd⟩, hcu⟩ := hinv
  have hsub : (deleteById db i).1.rows.Sublist db.rows :=
    List.filter_sublist db.rows
  refine ⟨⟨⟨hpos, ?_, ?_⟩, ?_⟩, ?_⟩
  · intro t ht
    exact hids t (hsub.mem ht)
  · exact ((hsub.map Task.id).nodup hnd)
  · intro t ht
    exact hcu t (hsub.mem ht)
  · intro t ht
    exact hb t (hsub.mem ht)

theorem runOp_post_step (db : Db) (b : Body) (now lo : Nat)
    (hinv : Db.inv db) (hb : Db.bounded db lo) (hle : lo ≤ now) :
    Db.inv (postTasks db b now).2 ∧ Db.bounded (postTasks db b now).2 now := by
  by_cases hv : (validateTask b).isEmpty = true
  · have heq : (postTasks db b now).2 =
        insertTask db (sanitize (b.title.getD ""))
          (b.description.map sanitize)
          (if truthy b.completed then 1 else 0) now := by
      simp [postTasks, hv]
    rw [heq]
    exact insertTask_step db _ _ _ now lo hinv hb hle
  · have heq : (postTasks db b now).2 = db := by
      simp [postTasks, hv]
    rw [heq]
    exact ⟨hinv, bounded_mono db lo now hb hle⟩

theorem runOp_put_step (db : Db) (i : Nat) (b : Body) (now lo : Nat)
    (hinv : Db.inv db) (hb : Db.bounded db lo) (hle : lo ≤ now) :
    Db.inv (putTask db i b now).2 ∧ Db.bounded (putTask db i b now).2 now := by
  by_cases hv : (validateTask b).isEmpty = true
  · have heq : (putTask db i b now).2 =
        (updateTask db i (sanitize (b.title.getD ""))
          (b.description.map sanitize)
          (if truthy b.completed then 1 else 0) now).1 := by
      simp only [putTask, hv, if_true]
      split <;> split <;> rfl
    rw [heq]
    exact updateTask_step db i _ _ _ now lo hinv hb hle
  · have heq : (putTask db i b now).2 = db := by
      simp [putTask, hv]
    rw [heq]
    exact ⟨hinv, bounded_mono db lo now hb hle⟩

theorem runOp_delete_step (db : Db) (i : Nat) (lo : Nat)
    (hinv : Db.inv db) (hb : Db.bounded db lo) :
    Db.inv (deleteTask db i).2 ∧ Db.bounded (deleteTask db i).2 lo := by
  have heq : (deleteTask db i).2 = (deleteById db i).1 := by
    simp only [deleteTask]
    split <;> rfl
  rw [heq]
  exact deleteById_step db i lo hinv hb

theorem runTrace_inv (ops : List Op) :
    ∀ db lo, Db.inv db → Db.bounded db lo → timesOk lo ops = true →
      Db.inv (runTrace db ops) := by
  induction ops with
  | nil => exact fun db lo h _ _ => h
  | cons op rest ih =>
    intro db lo hinv hb ht
    cases op with
    | post b now =>
      have ht' : (Nat.ble lo now && timesOk now rest) = true := ht
      rw [Bool.and_eq_true] at ht'
      obtain ⟨hle, ht2⟩ := ht'
      obtain ⟨hi2, hbnd⟩ :=
        runOp_post_step db b now lo hinv hb (Nat.le_of_ble_eq_true hle)
      exact ih _ now hi2 hbnd ht2
    | put i b now =>
      have ht' : (Nat.ble lo now && timesOk now rest) = true := ht
      rw [Bool.and_eq_true] at ht'
      obtain ⟨hle, ht2⟩ := ht'
      obtain ⟨hi2, hbnd⟩ :=
        runOp_put_step db i b now lo hinv hb (Nat.le_of_ble_eq_true hle)
      exact ih _ now hi2 hbnd ht2
    | delete i =>
      have ht2 : timesOk lo rest = true := ht
      obtain ⟨hi2, hbnd⟩ := runOp_delete_step db i lo hinv hb
      exact ih _ lo hi2 hbnd ht2

theorem runOp_nextId_le (db : Db) (op : Op) :
    db.nextId ≤ (runOp db op).nextId := by
  cases op with
  | post b now =>
    show db.nextId ≤ (postTasks db b now).2.nextId
    by_cases hv : (validateTask b).isEmpty = true
    · simp [postTasks, hv, insertTask]
    · simp [postTasks, hv]
  | put i b now =>
    show db.nextId ≤ (putTask db i b now).2.nextId
    by_cases hv : (validateTask b).isEmpty = true
    · simp only [putTask, hv, if_true]
      split <;> split <;> simp [updateTask]
    · simp [putTask, hv]
  | delete i =>
    show db.nextId ≤ (deleteTask db i).2.nextId
    simp only [deleteTask]
    split <;> simp [deleteById]

theorem runOp_keeps_absent (db : Db) (op : Op) (i : Nat)
    (hlt : i < db.nextId) (h : i ∉ db.rows.map Task.id) :
    i ∉ (runOp db op).rows.map Task.id := by
  cases op with
  | post b now =>
    show i ∉ (postTasks db b now).2.rows.map Task.id
    by_cases hv : (validateTask b).isEmpty = true
    · have heq : (postTasks db b now).2.rows =
          db.rows ++ [⟨db.nextId, sanitize (b.title.getD ""),
            b.description.map sanitize,
            (if truthy b.completed then 1 else 0), now, now⟩] := by
        simp [postTasks, hv, insertTask]
      rw [heq, List.map_append]
      intro hmem
      rcases List.mem_append.mp hmem with h1 | h2
      · exact h h1
      · simp at h2
        omega
    · have heq : (postTasks db b now).2 = db := by simp [postTasks, hv]
      rw [heq]
      exact h
  | put j b now =>
    show i ∉ (putTask db j b now).2.rows.map Task.id
    by_cases hv : (validateTask b).isEmpty = true
    · have heq : (putTask db j b now).2.rows =
          db.rows.map (fun x =>
            if x.id == j then
              { x with title := sanitize (b.title.getD ""),
                       description := b.description.map sanitize,
                       completed := (if truthy b.completed then 1 else 0),
                       updated_at := now }
            else x) := by
        simp only [putTask, hv, if_true]
        split <;> split <;> rfl
      rw [heq, map_id_update]
      exact h
    · have heq : (putTask db j b now).2 = db := by simp [putTask, hv]
      rw [heq]
      exact h
  | delete j =>
    show i ∉ (deleteTask db j).2.rows.map Task.id
    have heq : (deleteTask db j).2 = (deleteById db j).1 := by
      simp only [deleteTask]
      split <;> rfl
    rw [heq]
    intro hmem
    obtain ⟨x, hx, rfl⟩ := List.mem_map.mp hmem
    exact h (List.mem_map.mpr ⟨x, (List.filter_sublist db.rows).mem hx, rfl⟩)

theorem runTrace_keeps_absent (ops : List Op) :
    ∀ db i, i < db.nextId → i ∉ db.rows.map Task.id →
      i ∉ (runTrace db ops).rows.map Task.id := by
  induction ops with
  | nil => exact fun db i _ h => h
  | cons op rest ih =>
    intro db i hlt h
    exact ih (runOp db op) i
      (Nat.lt_of_lt_of_le hlt (runOp_nextId_le db op))
      (runOp_keeps_absent db op i hlt h)

theorem emptyDb_wf : Db.wf emptyDb := by
  refine ⟨Nat.one_pos, ?_, ?_⟩ <;> simp [emptyDb]

theorem emptyDb_inv : Db.inv emptyDb := by
  refine ⟨emptyDb_wf, ?_⟩
  simp [emptyDb]

theorem getById_insertTask (db : Db) (ti : String) (d : Option String)
    (c now : Nat) (hwf : Db.wf db) :
    getById (insertTask db ti d c now) db.nextId =
      some ⟨db.nextId, ti, d, c, now, now⟩ := by
  show (db.rows ++ [(⟨db.nextId, ti, d, c, now, now⟩ : Task)]).find?
      (fun t => t.id == db.nextId) = _
  exact find?_append_fresh db.rows ⟨db.nextId, ti, d, c, now, now⟩ db.nextId
    rfl (fun x hx => Nat.ne_of_lt (hwf.2.1 x hx).2)

theorem putTask_valid_eq (db : Db) (i : Nat) (b : Body) (now : Nat)
    (hv : (validateTask b).isEmpty = true) :
    putTask db i b now =
      (if (updateTask db i (sanitize (b.title.getD ""))
            (b.description.map sanitize)
            (if truthy b.completed then 1 else 0) now).2 == 0
       then (⟨404, .message "Task not found"⟩,
             (updateTask db i (sanitize (b.title.getD ""))
               (b.description.map sanitize)
               (if truthy b.completed then 1 else 0) now).1)
       else (⟨200, .messageWithId "Task updated" i⟩,
             (updateTask db i (sanitize (b.title.getD ""))
               (b.description.map sanitize)
               (if truthy b.completed then 1 else 0) now).1)) := by
  simp only [putTask, hv, if_true]

theorem insertSorted_perm (t : Task) (l : List Task) :
    (insertSorted t l).Perm (t :: l) := by
  induction l with
  | nil => exact List.Perm.refl _
  | cons h rest ih =>
    unfold insertSorted
    by_cases hc : createdDesc t h = true
    · rw [if_pos hc]
    · rw [if_neg hc]
      exact (List.Perm.cons h ih).trans (List.Perm.swap t h rest)

theorem sortByCreatedDesc_perm (l : List Task) :
    (sortByCreatedDesc l).Perm l := by
  induction l with
  | nil => exact List.Perm.refl _
  | cons h rest ih =>
    exact (insertSorted_perm h (sortByCreatedDesc rest)).trans
      (List.Perm.cons h ih)

theorem pairwise_insertSorted (t : Task) (l : List Task)
    (h : l.Pairwise (fun a b => b.created_at ≤ a.created_at)) :
    (insertSorted t l).Pairwise (fun a b => b.created_at ≤ a.created_at) := by
  induction l with
  | nil => simp [insertSorted]
  | cons hd rest ih =>
    rw [List.pairwise_cons] at h
    obtain ⟨hhd, hrest⟩ := h
    unfold insertSorted
    by_cases hc : createdDesc t hd = true
    · rw [if_pos hc]
      have hth : hd.created_at ≤ t.created_at := Nat.le_of_ble_eq_true hc
      refine List.pairwise_cons.mpr ⟨?_, List.pairwise_cons.mpr ⟨hhd, hrest⟩⟩
      intro y hy
      rcases List.mem_cons.mp hy with rfl | hy2
      · exact hth
      · exact Nat.le_trans (hhd y hy2) hth
    · rw [if_neg hc]
      have hht : t.created_at ≤ hd.created_at := by
        simp [createdDesc] at hc
        omega
      refine List.pairwise_cons.mpr ⟨?_, ih hrest⟩
      intro y hy
      have hy2 := (insertSorted_perm t rest).mem_iff.mp hy
      rcases List.mem_cons.mp hy2 with rfl | hy3
      · exact hht
      · exact hhd y hy3

theorem pairwise_sortByCreatedDesc (l : List Task) :
    (sortByCreatedDesc l).Pairwise (fun a b => b.created_at ≤ a.created_at) := by
  induction l with
  | nil => simp [sortByCreatedDesc]
  | cons h rest ih => exact pairwise_insertSorted h _ ih

theorem listPage_mem (db : Db) (f : Option Nat) (l o : Int) (t : Task)
    (h : t ∈ listPage db f l o) : t ∈ baseRows db f := by
  unfold listPage at h
  have h2 : t ∈ (sortByCreatedDesc (baseRows db f)).drop o.toNat := by
    by_cases hl : l < 0
    · rw [if_pos hl] at h
      exact h
    · rw [if_neg hl] at h
      exact List.mem_of_mem_take h
  exact (sortByCreatedDesc_perm _).mem_iff.mp (List.mem_of_mem_drop h2)

theorem listPage_pairwise (db : Db) (f : Option Nat) (l o : Int) :
    (listPage db f l o).Pairwise (fun a b => b.created_at ≤ a.created_at) := by
  have hp := pairwise_sortByCreatedDesc (baseRows db f)
  unfold listPage
  by_cases hl : l < 0
  · rw [if_pos hl]
    exact List.Pairwise.sublist (List.drop_sublist _ _) hp
  · rw [if_neg hl]
    exact List.Pairwise.sublist
      ((List.take_sublist _ _).trans (List.drop_sublist _ _)) hp

theorem listPage_all (db : Db) (l o : Int) (hl : 0 ≤ l) (ho : o = 0)
    (hlen : db.rows.length ≤ l.toNat) :
    (listPage db none l o).Perm db.rows := by
  unfold listPage
  rw [if_neg (by omega : ¬l < 0), ho]
  rw [show (0 : Int).toNat = 0 from rfl, List.drop_zero]
  have hlen2 : (sortByCreatedDesc (baseRows db none)).length ≤ l.toNat := by
    rw [(sortByCreatedDesc_perm (baseRows db none)).length_eq]
    exact hlen
  rw [List.take_of_length_le hlen2]
  exact sortByCreatedDesc_perm _

/-! ### C1 -/

/-- C1: for every valid body, POST /tasks answers 201 with the created task
carrying the fresh positive id, and GET /tasks/:id on that id then answers
200 with a task whose title, description and completed match the created
values and whose created_at equals updated_at. -/
theorem post_then_get_matches (db : Db) (b : Body) (now : Nat)
    (hwf : Db.wf db) (hv : validateTask b = []) :
    (postTasks db b now).1 =
      ⟨201, .createdTask db.nextId (sanitize (b.title.getD ""))
        (b.description.map sanitize) (truthy b.completed)⟩ ∧
    0 < db.nextId ∧
    getTaskById (postTasks db b now).2 db.nextId =
      ⟨200, .task ⟨db.nextId, sanitize (b.title.getD ""),
        b.description.map sanitize,
        (if truthy b.completed then 1 else 0), now, now⟩⟩ := by
  have hv' : (validateTask b).isEmpty = true := by rw [hv]; rfl
  refine ⟨by simp [postTasks, hv'], hwf.1, ?_⟩
  have heq : (postTasks db b now).2 =
      insertTask db (sanitize (b.title.getD "")) (b.description.map sanitize)
        (if truthy b.completed then 1 else 0) now := by
    simp [postTasks, hv']
  rw [heq]
  unfold getTaskById
  rw [getById_insertTask db _ _ _ now hwf]

/-- Witness for C1 at a concrete body and table. -/
theorem post_then_get_matches_witness :
    Db.wf emptyDb ∧
    validateTask ⟨some "Buy milk", none, JsVal.bool true⟩ = [] ∧
    ((postTasks emptyDb ⟨some "Buy milk", none, JsVal.bool true⟩ 7).1 =
      ⟨201, .createdTask emptyDb.nextId
        (sanitize ((⟨some "Buy milk", none, JsVal.bool true⟩ : Body).title.getD ""))
        ((⟨some "Buy milk", none, JsVal.bool true⟩ : Body).description.map sanitize)
        (truthy (⟨some "Buy milk", none, JsVal.bool true⟩ : Body).completed)⟩ ∧
    0 < emptyDb.nextId ∧
    getTaskById (postTasks emptyDb ⟨some "Buy milk", none, JsVal.bool true⟩ 7).2
        emptyDb.nextId =
      ⟨200, .task ⟨emptyDb.nextId,
        sanitize ((⟨some "Buy milk", none, JsVal.bool true⟩ : Body).title.getD ""),
        (⟨some "Buy milk", none, JsVal.bool true⟩ : Body).description.map sanitize,
        (if truthy (⟨some "Buy milk", none, JsVal.bool true⟩ : Body).completed
         then 1 else 0), 7, 7⟩⟩) :=
  ⟨emptyDb_wf, by decide,
   post_then_get_matches emptyDb ⟨some "Buy milk", none, JsVal.bool true⟩ 7
     emptyDb_wf (by decide)⟩

/-! ### C2 -/

/-- C2 counterexample: a whitespace-only title is NOT rejected — `notEmpty`
runs before `trim`, so POST answers 201 and a row is inserted (the row count
grows from 0 to 1), refuting the claim that any title that is empty after
trimming yields 400 with no Store call. -/
theorem whitespace_title_not_rejected :
    validateTask ⟨some "   ", none, JsVal.undef⟩ = [] ∧
    (postTasks emptyDb ⟨some "   ", none, JsVal.undef⟩ 0).1.status = 201 ∧
    (postTasks emptyDb ⟨some "   ", none, JsVal.undef⟩ 0).2.rows.length = 1 := by
  decide

/-- C2 amended: for a missing title or one that is the empty string before
trimming, POST and PUT answer 400 with the structured field-error list
(containing the title error), no Store call is made and the table is
unchanged; a whitespace-only title, by contrast, passes validation. -/
theorem missing_or_empty_title_rejected (db : Db) (b : Body) (now : Nat)
    (i : Nat) (h : b.title = none ∨ b.title = some "") :
    (postTasks db b now).1.status = 400 ∧
    (postTasks db b now).2 = db ∧
    (putTask db i b now).1.status = 400 ∧
    (putTask db i b now).2 = db ∧
    (postTasks db b now).1.body = .validationErrors (validateTask b) ∧
    (⟨"title", "Title is required"⟩ : FieldError) ∈ validateTask b := by
  have hte : titleNotEmpty b.title = false := by
    rcases h with h | h <;> rw [h] <;> rfl
  have hvt : validateTask b =
      ⟨"title", "Title is required"⟩ ::
        (if completedIsBoolean b.completed then []
         else [⟨"completed", "Completed must be a boolean"⟩]) := by
    unfold validateTask
    rw [hte]
    rfl
  have hne : (validateTask b).isEmpty = false := by
    rw [hvt]
    rfl
  refine ⟨?_, ?_, ?_, ?_, ?_, ?_⟩
  · simp [postTasks, hne]
  · simp [postTasks, hne]
  · simp [putTask, hne]
  · simp [putTask, hne]
  · simp [postTasks, hne]
  · rw [hvt]
    exact List.mem_cons_self _ _

/-- Witness for C2 (amended) at a concrete empty-title body. -/
theorem missing_or_empty_title_rejected_witness :
    ((⟨some "", none, JsVal.undef⟩ : Body).title = none ∨
      (⟨some "", none, JsVal.undef⟩ : Body).title = some "") ∧
    ((postTasks emptyDb ⟨some "", none, JsVal.undef⟩ 0).1.status = 400 ∧
     (postTasks emptyDb ⟨some "", none, JsVal.undef⟩ 0).2 = emptyDb ∧
     (putTask emptyDb 1 ⟨some "", none, JsVal.undef⟩ 0).1.status = 400 ∧
     (putTask emptyDb 1 ⟨some "", none, JsVal.undef⟩ 0).2 = emptyDb ∧
     (postTasks emptyDb ⟨some "", none, JsVal.undef⟩ 0).1.body =
       .validationErrors (validateTask ⟨some "", none, JsVal.undef⟩) ∧
     (⟨"title", "Title is required"⟩ : FieldError) ∈
       validateTask ⟨some "", none, JsVal.undef⟩) :=
  ⟨Or.inr rfl,
   missing_or_empty_title_rejected emptyDb ⟨some "", none, JsVal.undef⟩ 0 1
     (Or.inr rfl)⟩

/-! ### C3 -/

/-- C3 counterexample: the state reached from the fresh table by the single
request POST with title "   " (three spaces) holds a persisted row whose
title is the empty string — the invariant "title is non-empty for every
persisted row" does not hold for the code. -/
theorem empty_title_row_reachable :
    (runTrace emptyDb [Op.post ⟨some "   ", none, JsVal.undef⟩ 5]).rows =
      [⟨1, "", none, 0, 5, 5⟩] := by
  decide

/-- C3 amended: in every state reachable under a monotone clock, ids are
positive, distinct and below the AUTOINCREMENT counter, `updated_at >=
created_at` holds for every row, and an id currently absent but already
allocated (below the counter) is never reused by any further requests; the
non-empty-title part of the claimed invariant is dropped (see the
counterexample). -/
theorem store_invariants (ops ops2 : List Op) (i : Nat)
    (h : timesOk 0 ops = true)
    (hid : i < (runTrace emptyDb ops).nextId)
    (hout : i ∉ (runTrace emptyDb ops).rows.map Task.id) :
    Db.inv (runTrace emptyDb ops) ∧
    i ∉ (runTrace (runTrace emptyDb ops) ops2).rows.map Task.id := by
  have hb0 : Db.bounded emptyDb 0 := by
    intro t ht
    simp [emptyDb] at ht
  exact ⟨runTrace_inv ops emptyDb 0 emptyDb_inv hb0 h,
         runTrace_keeps_absent ops2 _ i hid hout⟩

/-- Witness for C3 (amended): create then delete id 1, then create again —
id 1 is never handed out a second time. -/
theorem store_invariants_witness :
    timesOk 0 [Op.post ⟨some "a", none, JsVal.undef⟩ 1, Op.delete 1] = true ∧
    1 < (runTrace emptyDb
      [Op.post ⟨some "a", none, JsVal.undef⟩ 1, Op.delete 1]).nextId ∧
    1 ∉ (runTrace emptyDb
      [Op.post ⟨some "a", none, JsVal.undef⟩ 1, Op.delete 1]).rows.map Task.id ∧
    (Db.inv (runTrace emptyDb
      [Op.post ⟨some "a", none, JsVal.undef⟩ 1, Op.delete 1]) ∧
     1 ∉ (runTrace (runTrace emptyDb
        [Op.post ⟨some "a", none, JsVal.undef⟩ 1, Op.delete 1])
        [Op.post ⟨some "b", none, JsVal.undef⟩ 2]).rows.map Task.id) :=
  ⟨by decide, by decide, by decide,
   store_invariants [Op.post ⟨some "a", none, JsVal.undef⟩ 1, Op.delete 1]
     [Op.post ⟨some "b", none, JsVal.undef⟩ 2] 1
     (by decide) (by decide) (by decide)⟩

/-! ### C4 -/

/-- C4: for an existing id and a valid body, PUT /tasks/:id answers 200,
fully replaces title, description and completed with the sanitized body
fields, sets updated_at to the statement time, and leaves id and created_at
unchanged, so a later GET-by-id shows the new fields with updated_at
strictly after created_at (given the clock has advanced past creation). -/
theorem put_then_get_reflects (db : Db) (i : Nat) (b : Body) (now : Nat)
    (t : Task) (hv : validateTask b = []) (h : getById db i = some t)
    (hlt : t.created_at < now) :
    (putTask db i b now).1 = ⟨200, .messageWithId "Task updated" i⟩ ∧
    getTaskById (putTask db i b now).2 i =
      ⟨200, .task { t with title := sanitize (b.title.getD ""),
                           description := b.description.map sanitize,
                           completed := if truthy b.completed then 1 else 0,
                           updated_at := now }⟩ ∧
    ({ t with title := sanitize (b.title.getD ""),
              description := b.description.map sanitize,
              completed := if truthy b.completed then 1 else 0,
              updated_at := now } : Task).created_at <
      ({ t with title := sanitize (b.title.getD ""),
                description := b.description.map sanitize,
                completed := if truthy b.completed then 1 else 0,
                updated_at := now } : Task).updated_at := by
  have hv2 : (validateTask b).isEmpty = true := by rw [hv]; rfl
  have hch := updateTask_changes_pos db i t (sanitize (b.title.getD ""))
    (b.description.map sanitize) (if truthy b.completed then 1 else 0) now h
  have hcond : ((updateTask db i (sanitize (b.title.getD ""))
      (b.description.map sanitize)
      (if truthy b.completed then 1 else 0) now).2 == 0) = false := by
    simpa using hch
  rw [putTask_valid_eq db i b now hv2, hcond]
  refine ⟨rfl, ?_, hlt⟩
  show getTaskById (updateTask db i (sanitize (b.title.getD ""))
      (b.description.map sanitize)
      (if truthy b.completed then 1 else 0) now).1 i = _
  unfold getTaskById
  have hfind := find?_map_update db.rows i t (sanitize (b.title.getD ""))
    (b.description.map sanitize) (if truthy b.completed then 1 else 0) now h
  show (match (updateTask db i (sanitize (b.title.getD ""))
      (b.description.map sanitize)
      (if truthy b.completed then 1 else 0) now).1.rows.find?
        (fun x => x.id == i) with
    | none => (⟨404, .message "Task not found"⟩ : Response)
    | some u => ⟨200, .task u⟩) = _
  rw [show (updateTask db i (sanitize (b.title.getD ""))
      (b.description.map sanitize)
      (if truthy b.completed then 1 else 0) now).1.rows.find?
        (fun x => x.id == i) = _ from hfind]

/-- Witness for C4: update the single row of a one-row table. -/
theorem put_then_get_reflects_witness :
    validateTask ⟨some "New", some "d", JsVal.bool true⟩ = [] ∧
    getById ⟨[⟨1, "Old", none, 0, 3, 3⟩], 2⟩ 1 =
      some ⟨1, "Old", none, 0, 3, 3⟩ ∧
    (⟨1, "Old", none, 0, 3, 3⟩ : Task).created_at < 9 ∧
    ((putTask ⟨[⟨1, "Old", none, 0, 3, 3⟩], 2⟩ 1
        ⟨some "New", some "d", JsVal.bool true⟩ 9).1 =
      ⟨200, .messageWithId "Task updated" 1⟩ ∧
     getTaskById (putTask ⟨[⟨1, "Old", none, 0, 3, 3⟩], 2⟩ 1
        ⟨some "New", some "d", JsVal.bool true⟩ 9).2 1 =
      ⟨200, .task { (⟨1, "Old", none, 0, 3, 3⟩ : Task) with
        title := sanitize ((⟨some "New", some "d", JsVal.bool true⟩ : Body).title.getD ""),
        description := (⟨some "New", some "d", JsVal.bool true⟩ : Body).description.map sanitize,
        completed := if truthy (⟨some "New", some "d", JsVal.bool true⟩ : Body).completed then 1 else 0,
        updated_at := 9 }⟩ ∧
     ({ (⟨1, "Old", none, 0, 3, 3⟩ : Task) with
        title := sanitize ((⟨some "New", some "d", JsVal.bool true⟩ : Body).title.getD ""),
        description := (⟨some "New", some "d", JsVal.bool true⟩ : Body).description.map sanitize,
        completed := if truthy (⟨some "New", some "d", JsVal.bool true⟩ : Body).completed then 1 else 0,
        updated_at := 9 } : Task).created_at <
      ({ (⟨1, "Old", none, 0, 3, 3⟩ : Task) with
        title := sanitize ((⟨some "New", some "d", JsVal.bool true⟩ : Body).title.getD ""),
        description := (⟨some "New", some "d", JsVal.bool true⟩ : Body).description.map sanitize,
        completed := if truthy (⟨some "New", some "d", JsVal.bool true⟩ : Body).completed then 1 else 0,
        updated_at := 9 } : Task).updated_at) :=
  ⟨by decide, by decide, by decide,
   put_then_get_reflects ⟨[⟨1, "Old", none, 0, 3, 3⟩], 2⟩ 1
     ⟨some "New", some "d", JsVal.bool true⟩ 9 ⟨1, "Old", none, 0, 3, 3⟩
     (by decide) (by decide) (by decide)⟩

/-! ### C5 -/

/-- C5: PUT (with a valid body) and DELETE on an id absent from the store
answer 404 and leave the table unchanged; after any DELETE of an id, a
repeated DELETE on the same id answers 404 (twice over) without changing
the table further, and GET-by-id on that id answers 404. -/
theorem absent_id_put_delete_404 (db : Db) (i : Nat) (b : Body) (now : Nat)
    (hv : validateTask b = []) (h : getById db i = none) :
    putTask db i b now = (⟨404, .message "Task not found"⟩, db) ∧
    deleteTask db i = (⟨404, .message "Task not found"⟩, db) ∧
    (∀ db2 : Db,
      deleteTask (deleteTask db2 i).2 i =
        (⟨404, .message "Task not found"⟩, (deleteTask db2 i).2) ∧
      deleteTask (deleteTask (deleteTask db2 i).2 i).2 i =
        (⟨404, .message "Task not found"⟩, (deleteTask db2 i).2) ∧
      getTaskById (deleteTask db2 i).2 i = ⟨404, .message "Task not found"⟩) := by
  have hv2 : (validateTask b).isEmpty = true := by rw [hv]; rfl
  have habs : ∀ x ∈ db.rows, ¬(x.id == i) = true := List.find?_eq_none.mp h
  have hdel : ∀ db2 : Db, (deleteTask db2 i).2 = (deleteById db2 i).1 := by
    intro db2
    simp only [deleteTask]
    split <;> rfl
  have hclear : ∀ db2 : Db, ∀ x ∈ (deleteTask db2 i).2.rows,
      ¬(x.id == i) = true := by
    intro db2
    rw [hdel db2]
    exact deleteById_clears db2 i
  have hdel404 : ∀ db3 : Db, (∀ x ∈ db3.rows, ¬(x.id == i) = true) →
      deleteTask db3 i = (⟨404, .message "Task not found"⟩, db3) := by
    intro db3 h3
    unfold deleteTask
    rw [deleteById_of_absent db3 i h3]
    rfl
  refine ⟨?_, hdel404 db habs, ?_⟩
  · rw [putTask_valid_eq db i b now hv2,
      updateTask_of_absent db i (sanitize (b.title.getD ""))
        (b.description.map sanitize)
        (if truthy b.completed then 1 else 0) now h]
    rfl
  · intro db2
    have h2 := hclear db2
    have first := hdel404 (deleteTask db2 i).2 h2
    refine ⟨first, ?_, ?_⟩
    · rw [first]
      exact first
    · unfold getTaskById
      rw [show getById (deleteTask db2 i).2 i = none from
        List.find?_eq_none.mpr h2]

/-- Witness for C5 at the empty table and a valid body. -/
theorem absent_id_put_delete_404_witness :
    validateTask ⟨some "x", none, JsVal.undef⟩ = [] ∧
    getById emptyDb 9 = none ∧
    (putTask emptyDb 9 ⟨some "x", none, JsVal.undef⟩ 0 =
      (⟨404, .message "Task not found"⟩, emptyDb) ∧
     deleteTask emptyDb 9 = (⟨404, .message "Task not found"⟩, emptyDb) ∧
     (∀ db2 : Db,
       deleteTask (deleteTask db2 9).2 9 =
         (⟨404, .message "Task not found"⟩, (deleteTask db2 9).2) ∧
       deleteTask (deleteTask (deleteTask db2 9).2 9).2 9 =
         (⟨404, .message "Task not found"⟩, (deleteTask db2 9).2) ∧
       getTaskById (deleteTask db2 9).2 9 = ⟨404, .message "Task not found"⟩)) :=
  ⟨by decide, by decide,
   absent_id_put_delete_404 emptyDb 9 ⟨some "x", none, JsVal.undef⟩ 0
     (by decide) (by decide)⟩

/-! ### C6 -/

/-- C6 counterexample: with 11 rows and no query parameters, GET /tasks
returns only 10 tasks (the default `limit = 10` page), refuting the part of
the claim that says ALL tasks are returned when the filter is absent; the 10
returned are the newest ones in descending `created_at` order. -/
theorem default_limit_truncates :
    (getTasks elevenDb ⟨none, none, none⟩).2.body =
      .taskList (elevenDb.rows.reverse.take 10) 10 ∧
    elevenDb.rows.length = 11 := by
  decide

/-- C6 amended: whenever the bound limit and offset cast to integers, the
response is 200 with the computed page and its count; every returned task
matches the completed filter when one is present ("true" selects 1, any
other present value selects 0); the returned sequence is ordered newest
first by `created_at`; and with no filter, offset 0 and a limit at least the
table size, the page is a permutation of the whole table (in general the
default limit of 10 truncates). -/
theorem list_tasks_filtered_sorted (db : Db) (q : ListQuery) (l o : Int)
    (hl : sqlToInt? (queryLimit q) = some l)
    (ho : sqlToInt? (queryOffset q) = some o) :
    (getTasks db q).2 = ⟨200, .taskList (listPage db (queryFilter q) l o)
      (listPage db (queryFilter q) l o).length⟩ ∧
    (∀ c, q.completed = some c →
      ∀ t ∈ listPage db (queryFilter q) l o,
        t.completed = (if c == "true" then 1 else 0)) ∧
    (listPage db (queryFilter q) l o).Pairwise
      (fun a b => b.created_at ≤ a.created_at) ∧
    (q.completed = none → 0 ≤ l → o = 0 → db.rows.length ≤ l.toNat →
      (listPage db (queryFilter q) l o).Perm db.rows) := by
  refine ⟨?_, ?_, listPage_pairwise db (queryFilter q) l o, ?_⟩
  · show (match sqlToInt? (queryLimit q), sqlToInt? (queryOffset q) with
      | some l2, some o2 =>
        (⟨200, .taskList (listPage db (queryFilter q) l2 o2)
          (listPage db (queryFilter q) l2 o2).length⟩ : Response)
      | _, _ => ⟨500, .defaultErrorPage "SQLITE_MISMATCH: datatype mismatch"⟩) = _
    rw [hl, ho]
  · intro c hc t ht
    have hbase := listPage_mem db (queryFilter q) l o t ht
    have hf : queryFilter q = some (if c == "true" then 1 else 0) := by
      rw [queryFilter, hc]
      rfl
    rw [hf] at hbase
    have hmf := List.mem_filter.mp hbase
    simpa using hmf.2
  · intro hc hl0 ho0 hlen
    have hf : queryFilter q = none := by
      rw [queryFilter, hc]
      rfl
    rw [hf]
    exact listPage_all db l o hl0 ho0 hlen

/-- Witness for C6 (amended) at a two-row table with a "true" filter. -/
theorem list_tasks_filtered_sorted_witness :
    sqlToInt? (queryLimit ⟨some "true", none, none⟩) = some 10 ∧
    sqlToInt? (queryOffset ⟨some "true", none, none⟩) = some 0 ∧
    ((getTasks ⟨[⟨1, "a", none, 0, 1, 1⟩, ⟨2, "b", none, 1, 2, 2⟩], 3⟩
        ⟨some "true", none, none⟩).2 =
      ⟨200, .taskList (listPage ⟨[⟨1, "a", none, 0, 1, 1⟩, ⟨2, "b", none, 1, 2, 2⟩], 3⟩
          (queryFilter ⟨some "true", none, none⟩) 10 0)
        (listPage ⟨[⟨1, "a", none, 0, 1, 1⟩, ⟨2, "b", none, 1, 2, 2⟩], 3⟩
          (queryFilter ⟨some "true", none, none⟩) 10 0).length⟩ ∧
     (∀ c, (⟨some "true", none, none⟩ : ListQuery).completed = some c →
       ∀ t ∈ listPage ⟨[⟨1, "a", none, 0, 1, 1⟩, ⟨2, "b", none, 1, 2, 2⟩], 3⟩
           (queryFilter ⟨some "true", none, none⟩) 10 0,
         t.completed = (if c == "true" then 1 else 0)) ∧
     (listPage ⟨[⟨1, "a", none, 0, 1, 1⟩, ⟨2, "b", none, 1, 2, 2⟩], 3⟩
        (queryFilter ⟨some "true", none, none⟩) 10 0).Pairwise
       (fun a b => b.created_at ≤ a.created_at) ∧
     ((⟨some "true", none, none⟩ : ListQuery).completed = none → 0 ≤ (10 : Int) →
       (0 : Int) = 0 →
       (⟨[⟨1, "a", none, 0, 1, 1⟩, ⟨2, "b", none, 1, 2, 2⟩], 3⟩ : Db).rows.length ≤
         (10 : Int).toNat →
       (listPage ⟨[⟨1, "a", none, 0, 1, 1⟩, ⟨2, "b", none, 1, 2, 2⟩], 3⟩
          (queryFilter ⟨some "true", none, none⟩) 10 0).Perm
         (⟨[⟨1, "a", none, 0, 1, 1⟩, ⟨2, "b", none, 1, 2, 2⟩], 3⟩ : Db).rows)) :=
  ⟨by decide, by decide,
   list_tasks_filtered_sorted ⟨[⟨1, "a", none, 0, 1, 1⟩, ⟨2, "b", none, 1, 2, 2⟩], 3⟩
     ⟨some "true", none, none⟩ 10 0 (by decide) (by decide)⟩

/-! ### C7 -/

/-- C7 counterexample: a negative (or non-numeric) limit is NOT rejected by
the handler — the store call carries the raw string "-5" (and "abc"
respectively), and for "-5" the request even answers 200, refuting the
claim that such requests are rejected before any Store call. -/
theorem invalid_pagination_reaches_store :
    (getTasks emptyDb ⟨none, some "-5", none⟩).1 =
      ⟨none, SqlParam.str "-5", SqlParam.int 0⟩ ∧
    (getTasks emptyDb ⟨none, some "-5", none⟩).2.status = 200 ∧
    (getTasks emptyDb ⟨none, some "abc", none⟩).1.limit = SqlParam.str "abc" := by
  decide

/-- C7 amended: the handler performs no validation of limit or offset — the
store call always carries the query values verbatim (the raw string when
present), with the defaults 10 and 0 substituted only when the parameter is
absent, in which case the store runs the default page LIMIT 10 OFFSET 0. -/
theorem pagination_passthrough (db : Db) (q : ListQuery) :
    (getTasks db q).1 =
      ⟨queryFilter q,
        (match q.limit with
         | some s => SqlParam.str s
         | none => SqlParam.int 10),
        (match q.offset with
         | some s => SqlParam.str s
         | none => SqlParam.int 0)⟩ ∧
    (getTasks db ⟨q.completed, none, none⟩).2 =
      ⟨200, .taskList (listPage db (queryFilter q) 10 0)
        (listPage db (queryFilter q) 10 0).length⟩ :=
  ⟨rfl, rfl⟩

/-! ### C8 -/

/-- C8: the custom errorHandler is mounted at stack index 1, BEFORE every
route (indices 2..7), and express dispatches an error only to error
middleware placed AFTER the failing layer — so an error passed to `next` by
any route handler (e.g. a Store I/O failure) reaches the express fallback
page, which is not the generic JSON 500 of `errorHandler` and, outside
production, carries the error detail. -/
theorem route_error_skips_errorHandler :
    (List.range appStack.length).all
      (fun i => !(Nat.ble firstRouteIdx i) || !(hasErrorLayerAfter appStack i)) =
      true ∧
    errorDispatch appStack 4 "Error: SQLITE_CANTOPEN, stack frames of db.all" =
      ⟨500, .defaultErrorPage "Error: SQLITE_CANTOPEN, stack frames of db.all"⟩ ∧
    errorDispatch appStack 4 "Error: SQLITE_CANTOPEN, stack frames of db.all" ≠
      errorHandlerResponse := by
  decide

/-! ### C9 -/

/-- C9: for a body passing validation, the stored title is exactly the
escaped trimmed input title, and the stored description (when present) is
the escaped trimmed input description — for POST the inserted row and for
PUT every row matching the path id. -/
theorem sanitize_before_store (db : Db) (b : Body) (now : Nat) (s : String)
    (i : Nat) (hv : validateTask b = []) (ht : b.title = some s) :
    (postTasks db b now).2.rows =
      db.rows ++ [⟨db.nextId, escapeHtml (jsTrim s),
        b.description.map (fun d => escapeHtml (jsTrim d)),
        (if truthy b.completed then 1 else 0), now, now⟩] ∧
    (∀ t ∈ (putTask db i b now).2.rows, t.id = i →
      t.title = escapeHtml (jsTrim s) ∧
      t.description = b.description.map (fun d => escapeHtml (jsTrim d))) := by
  have hv2 : (validateTask b).isEmpty = true := by rw [hv]; rfl
  have hsan : sanitize (b.title.getD "") = escapeHtml (jsTrim s) := by
    rw [ht]
    rfl
  constructor
  · have heq : (postTasks db b now).2 =
        insertTask db (sanitize (b.title.getD ""))
          (b.description.map sanitize)
          (if truthy b.completed then 1 else 0) now := by
      simp [postTasks, hv2]
    rw [heq, insertTask, hsan]
    rfl
  · intro t htm htid
    rw [putTask_valid_eq db i b now hv2] at htm
    have htm2 : t ∈ (updateTask db i (sanitize (b.title.getD ""))
        (b.description.map sanitize)
        (if truthy b.completed then 1 else 0) now).1.rows := by
      by_cases hc : ((updateTask db i (sanitize (b.title.getD ""))
          (b.description.map sanitize)
          (if truthy b.completed then 1 else 0) now).2 == 0) = true
      · rwa [if_pos hc] at htm
      · rwa [if_neg hc] at htm
    obtain ⟨x, hx, rfl⟩ := List.mem_map.mp htm2
    by_cases hxi : (x.id == i) = true
    · rw [if_pos hxi]
      exact ⟨hsan, rfl⟩
    · rw [if_neg hxi] at htid
      rw [show (x.id == i) = true from by simp [htid]] at hxi
      exact absurd rfl hxi

/-- Witness for C9 at a markup-laden title and description. -/
theorem sanitize_before_store_witness :
    validateTask ⟨some "  a<b  ", some " x&y ", JsVal.undef⟩ = [] ∧
    (⟨some "  a<b  ", some " x&y ", JsVal.undef⟩ : Body).title = some "  a<b  " ∧
    ((postTasks emptyDb ⟨some "  a<b  ", some " x&y ", JsVal.undef⟩ 4).2.rows =
      emptyDb.rows ++ [⟨emptyDb.nextId, escapeHtml (jsTrim "  a<b  "),
        (⟨some "  a<b  ", some " x&y ", JsVal.undef⟩ : Body).description.map
          (fun d => escapeHtml (jsTrim d)),
        (if truthy (⟨some "  a<b  ", some " x&y ", JsVal.undef⟩ : Body).completed
         then 1 else 0), 4, 4⟩] ∧
     (∀ t ∈ (putTask emptyDb 1 ⟨some "  a<b  ", some " x&y ", JsVal.undef⟩ 4).2.rows,
       t.id = 1 →
       t.title = escapeHtml (jsTrim "  a<b  ") ∧
       t.description = (⟨some "  a<b  ", some " x&y ", JsVal.undef⟩ : Body).description.map
         (fun d => escapeHtml (jsTrim d)))) :=
  ⟨by decide, rfl,
   sanitize_before_store emptyDb ⟨some "  a<b  ", some " x&y ", JsVal.undef⟩ 4
     "  a<b  " 1 (by decide) rfl⟩

/-! ### C10 -/

/-- C10: a body carrying `completed` as the JSON string "false" passes
validation (isBoolean accepts the string), yet JavaScript truthiness makes
`completed ? 1 : 0` store 1, and POST echoes `completed: true` in its 201
response; PUT likewise persists 1 for every matched row. -/
theorem string_false_completed_truthy (db : Db) (ti : String)
    (d : Option String) (now i : Nat) (hti : ti ≠ "") :
    validateTask ⟨some ti, d, JsVal.str "false"⟩ = [] ∧
    (postTasks db ⟨some ti, d, JsVal.str "false"⟩ now).1 =
      ⟨201, .createdTask db.nextId (sanitize ti) (d.map sanitize) true⟩ ∧
    (postTasks db ⟨some ti, d, JsVal.str "false"⟩ now).2.rows =
      db.rows ++ [⟨db.nextId, sanitize ti, d.map sanitize, 1, now, now⟩] ∧
    (∀ t ∈ (putTask db i ⟨some ti, d, JsVal.str "false"⟩ now).2.rows,
      t.id = i → t.completed = 1) := by
  have htne : titleNotEmpty (some ti) = true := by
    simp [titleNotEmpty, hti]
  have hv : validateTask ⟨some ti, d, JsVal.str "false"⟩ = [] := by
    unfold validateTask
    rw [show titleNotEmpty (⟨some ti, d, JsVal.str "false"⟩ : Body).title = true
      from htne]
    rfl
  have hv2 : (validateTask ⟨some ti, d, JsVal.str "false"⟩).isEmpty = true := by
    rw [hv]
    rfl
  refine ⟨hv, ?_, ?_, ?_⟩
  · simp [postTasks, hv2]
    rfl
  · have heq : (postTasks db ⟨some ti, d, JsVal.str "false"⟩ now).2 =
        insertTask db (sanitize ti) (d.map sanitize) 1 now := by
      simp [postTasks, hv2]
      rfl
    rw [heq, insertTask]
  · intro t htm htid
    rw [putTask_valid_eq db i ⟨some ti, d, JsVal.str "false"⟩ now hv2] at htm
    have htm1 : t ∈ (if ((updateTask db i (sanitize ti) (d.map sanitize) 1 now).2
          == 0) = true
        then ((⟨404, .message "Task not found"⟩ : Response),
          (updateTask db i (sanitize ti) (d.map sanitize) 1 now).1)
        else ((⟨200, .messageWithId "Task updated" i⟩ : Response),
          (updateTask db i (sanitize ti) (d.map sanitize) 1 now).1)).2.rows := htm
    have htm2 : t ∈ (updateTask db i (sanitize ti) (d.map sanitize) 1 now).1.rows := by
      by_cases hc : ((updateTask db i (sanitize ti) (d.map sanitize) 1 now).2 == 0) = true
      · rwa [if_pos hc] at htm1
      · rwa [if_neg hc] at htm1
    obtain ⟨x, hx, rfl⟩ := List.mem_map.mp htm2
    by_cases hxi : (x.id == i) = true
    · rw [if_pos hxi]
    · rw [if_neg hxi] at htid
      rw [show (x.id == i) = true from by simp [htid]] at hxi
      exact absurd rfl hxi

/-- Witness for C10 at a concrete body. -/
theorem string_false_completed_truthy_witness :
    ("Ship" : String) ≠ "" ∧
    (validateTask ⟨some "Ship", none, JsVal.str "false"⟩ = [] ∧
     (postTasks emptyDb ⟨some "Ship", none, JsVal.str "false"⟩ 0).1 =
       ⟨201, .createdTask emptyDb.nextId (sanitize "Ship")
         ((none : Option String).map sanitize) true⟩ ∧
     (postTasks emptyDb ⟨some "Ship", none, JsVal.str "false"⟩ 0).2.rows =
       emptyDb.rows ++ [⟨emptyDb.nextId, sanitize "Ship",
         (none : Option String).map sanitize, 1, 0, 0⟩] ∧
     (∀ t ∈ (putTask emptyDb 1 ⟨some "Ship", none, JsVal.str "false"⟩ 0).2.rows,
       t.id = 1 → t.completed = 1)) :=
  ⟨by decide,
   string_false_completed_truthy emptyDb "Ship" none 0 1 (by decide)⟩

end TodoApp
